import Mathlib

/-!
# Verification of the bulk-mailer core against its specification

This file gives a shallow embedding of the bulk-mailer program
(`lib/recipients.py`, `lib/server_connections.py`, `lib/engine.py`,
`lib/ui/commandline.py`) and proves properties of the embedded code.

Conventions:
* Python `None` / raised exceptions are modelled with `Option`
  or explicit result constructors.
* The index of the active server connection is an `Int`, since the source
  uses `-1` for "no active connection".
* The SMTP transport (`smtplib.SMTP`) is external to the repository; it is
  modelled as an oracle (`Transport`) that tells, for the login step and for
  each iteration of the recipient loop, which outcome the library call has.
-/

namespace BulkMailer

/-! ## `lib/recipients.py` -/

/-- Embeds `Recipient` (`lib/recipients.py`): a display name and the list of
email addresses entered for that recipient. -/
structure Recipient where
  name : String
  addresses : List String
deriving Repr, DecidableEq

/-- Embeds `Recipient.get_formatted`: one string `name <address>` per
address, in order. -/
def Recipient.get_formatted (r : Recipient) : List String :=
  r.addresses.map (fun address => r.name ++ " <" ++ address ++ ">")

/-- Embeds `Recipient.__str__`: `name <addresses[0]>`.  Python raises
`IndexError` on an empty address list; the engine only applies `str` to
`connection.sender`, which is always constructed with exactly one address,
so the `""` default is never reached on the paths modelled here. -/
def Recipient.str (r : Recipient) : String :=
  r.name ++ " <" ++ r.addresses.headD "" ++ ">"

/-! ## `lib/server_connections.py` -/

/-- Embeds the `Encryption` enum. -/
inductive Encryption
  | SSL
  | STARTTLS
deriving Repr, DecidableEq

/-- Embeds `ServerConnection`.  The Python `smtp`/`imap` dicts are flattened
into fields; an encryption value of Python `False` is `Option.none` here. -/
structure ServerConnection where
  name : String
  smtp_host : String
  smtp_port : Nat
  smtp_encryption : Option Encryption
  smtp_login : Bool
  imap_host : Option String
  imap_port : Option Nat
  imap_encryption : Option Encryption
  imap_login : Bool
  share_login : Bool
  sender : Recipient
deriving Repr, DecidableEq

/-- Embeds `ServerConnectionList`: the ordered list of connections plus the
index of the active one (`-1` = none). -/
structure ServerConnectionList where
  connections : List ServerConnection
  active : Int
deriving Repr, DecidableEq

namespace ServerConnectionList

/-- Embeds `ServerConnectionList.__init__`. -/
def empty : ServerConnectionList := ⟨[], -1⟩

/-- Embeds `ServerConnectionList.delete`.  Returns `none` where the source
raises `IndexError` (index out of range); otherwise returns the new list
state.  The source first resets `active` to `-1` if the deleted index is the
active one, then decrements `active` if the deleted index is below it, and
finally pops the entry. -/
def delete (scl : ServerConnectionList) (i : Int) : Option ServerConnectionList :=
  if 0 ≤ i ∧ i < (scl.connections.length : Int) then
    let a1 : Int := if i = scl.active then -1 else scl.active
    let a2 : Int := if i < a1 then a1 - 1 else a1
    some ⟨scl.connections.eraseIdx i.toNat, a2⟩
  else
    none

/-- Embeds `ServerConnectionList.set_active`: valid indices are stored and
acknowledged with `True`, anything else leaves the state unchanged and
returns `False`. -/
def set_active (scl : ServerConnectionList) (i : Int) : Bool × ServerConnectionList :=
  if 0 ≤ i ∧ i < (scl.connections.length : Int) then
    (true, { scl with active := i })
  else
    (false, scl)

/-- Embeds `ServerConnectionList.append`: when `as_active` is set, `active`
becomes the index the new entry will occupy (the length before appending). -/
def append (scl : ServerConnectionList) (new_item : ServerConnection)
    (as_active : Bool) : ServerConnectionList :=
  ⟨scl.connections ++ [new_item],
   if as_active then (scl.connections.length : Int) else scl.active⟩

/-- Modelled from the spec: `ServerConnectionList.get_active` is called at
`lib/engine.py:168` and `lib/ui/commandline.py` but is not defined anywhere
in the source.  Per the spec, the active profile is "tracked by index in
`ServerProfileList`" with `-1` meaning none, and the caller compares the
result against `None`; so the model returns the entry at the active index,
or `none` when no entry is active. -/
def get_active (scl : ServerConnectionList) : Option ServerConnection :=
  if 0 ≤ scl.active ∧ scl.active < (scl.connections.length : Int) then
    scl.connections[scl.active.toNat]?
  else
    none

/-- The spec's invariant on the active index: `-1`, or a valid index. -/
def activeInvariant (scl : ServerConnectionList) : Prop :=
  scl.active = -1 ∨ (0 ≤ scl.active ∧ scl.active < (scl.connections.length : Int))

instance (scl : ServerConnectionList) : Decidable scl.activeInvariant := by
  unfold activeInvariant
  infer_instance

end ServerConnectionList

/-! ### List helpers for `delete` -/

theorem eraseIdx_length_sub_one {α : Type} :
    ∀ (l : List α) (i : Nat), i < l.length →
      (l.eraseIdx i).length = l.length - 1 := by
  intro l
  induction l with
  | nil => intro i h; simp at h
  | cons a t ih =>
    intro i h
    cases i with
    | zero => simp [List.eraseIdx]
    | succ i =>
      simp only [List.eraseIdx, List.length_cons]
      have hi : i < t.length := by simpa using h
      rw [ih i hi]
      omega

theorem eraseIdx_getElem?_of_lt {α : Type} :
    ∀ (l : List α) (i j : Nat), i < j →
      (l.eraseIdx i)[j - 1]? = l[j]? := by
  intro l
  induction l with
  | nil => intro i j _; simp [List.eraseIdx]
  | cons a t ih =>
    intro i j hij
    cases i with
    | zero =>
      cases j with
      | zero => exact absurd hij (by omega)
      | succ j => simp [List.eraseIdx]
    | succ i =>
      cases j with
      | zero => exact absurd hij (by omega)
      | succ j =>
        simp only [List.eraseIdx]
        have hij' : i < j := by omega
        have hj : 0 < j := by omega
        have h1 : (a :: t.eraseIdx i)[j + 1 - 1]? = (t.eraseIdx i)[j - 1]? := by
          have : j + 1 - 1 = (j - 1) + 1 := by omega
          rw [this]
          simp
        rw [h1, ih i j hij']
        simp

/-- **C9.** The `ServerConnectionList` active-index invariant holds after
every operation: `append` and `set_active` preserve it, and a successful
`delete i` preserves it; moreover deleting the active entry resets `active`
to `-1`, deleting strictly below the active index decreases `active` by one
and the new active index still designates the same connection, and deleting
above the active index leaves `active` unchanged. -/
theorem serverConnectionList_active_invariant
    (scl : ServerConnectionList) (c : ServerConnection) (b : Bool) (i : Int)
    (h : scl.activeInvariant) :
    (scl.append c b).activeInvariant ∧
    (scl.set_active i).2.activeInvariant ∧
    (∀ scl', scl.delete i = some scl' →
      scl'.activeInvariant ∧
      (i = scl.active → scl'.active = -1) ∧
      (i < scl.active →
        scl'.active = scl.active - 1 ∧
        scl'.connections[scl'.active.toNat]? = scl.connections[scl.active.toNat]?) ∧
      (scl.active < i → scl'.active = scl.active)) := by
  refine ⟨?_, ?_, ?_⟩
  · unfold ServerConnectionList.append ServerConnectionList.activeInvariant
    cases b with
    | false =>
      simp only [Bool.false_eq_true, if_false, List.length_append, List.length_cons,
        List.length_nil]
      rcases h with h | h
      · exact Or.inl h
      · right
        refine ⟨h.1, ?_⟩
        have := h.2
        push_cast
        omega
    | true =>
      simp only [if_true, List.length_append, List.length_cons, List.length_nil]
      right
      refine ⟨by positivity, ?_⟩
      push_cast
      omega
  · unfold ServerConnectionList.set_active
    by_cases hv : 0 ≤ i ∧ i < (scl.connections.length : Int)
    · simp only [if_pos hv]
      right
      exact hv
    · simp only [if_neg hv]
      exact h
  · intro scl' hdel
    unfold ServerConnectionList.delete at hdel
    by_cases hv : 0 ≤ i ∧ i < (scl.connections.length : Int)
    · simp only [if_pos hv, Option.some.injEq] at hdel
      obtain ⟨hv0, hvlen⟩ := hv
      have hlen' : (scl.connections.eraseIdx i.toNat).length
          = scl.connections.length - 1 := by
        apply eraseIdx_length_sub_one
        omega
      by_cases heq : i = scl.active
      · -- deleting the active entry: active resets to -1
        have ha2 : scl'.active = -1 := by
          have hnl : ¬ (scl.active < (-1 : Int)) := by omega
          rw [← hdel]
          simp [heq, hnl]
        refine ⟨Or.inl ha2, fun _ => ha2, fun hlt => absurd heq (by omega), fun hgt => absurd heq (by omega)⟩
      · by_cases hlt : i < scl.active
        · -- deleting below the active entry: active shifts down by one
          have ha2 : scl'.active = scl.active - 1 := by
            rw [← hdel]
            simp [heq, hlt]
          have hconn : scl'.connections = scl.connections.eraseIdx i.toNat := by
            rw [← hdel]
          have hAct0 : 0 ≤ scl.active := by omega
          have hActLen : scl.active < (scl.connections.length : Int) := by
            rcases h with h | h
            · omega
            · exact h.2
          refine ⟨?_, fun habs => absurd habs heq, fun _ => ⟨ha2, ?_⟩, fun habs => absurd habs (by omega)⟩
          · right
            constructor
            · omega
            · rw [ha2, hconn, hlen']
              omega
          · rw [ha2, hconn]
            have hidx : (scl.active - 1).toNat = scl.active.toNat - 1 := by omega
            rw [hidx]
            apply eraseIdx_getElem?_of_lt
            omega
        · -- deleting above the active entry: active unchanged
          have hgt : scl.active < i := by omega
          have ha2 : scl'.active = scl.active := by
            rw [← hdel]
            simp [heq, hlt]
          refine ⟨?_, fun habs => absurd habs heq, fun habs => absurd habs hlt, fun _ => ha2⟩
          rcases h with hnone | hval
          · exact Or.inl (ha2.trans hnone)
          · right
            rw [ha2, ← hdel]
            simp only
            rw [hlen']
            constructor
            · exact hval.1
            · omega
    · simp [if_neg hv] at hdel

/-- Witness for C9 at a concrete state: two connections, the second active;
deleting index 0 shifts the active index to 0 and keeps it on the same
connection. -/
theorem serverConnectionList_active_invariant_witness :
    (⟨[⟨"a", "h", 25, none, false, none, none, none, false, false, ⟨"A", ["a@x"]⟩⟩,
       ⟨"b", "h", 25, none, false, none, none, none, false, false, ⟨"B", ["b@x"]⟩⟩],
      1⟩ : ServerConnectionList).activeInvariant ∧
    ((⟨[⟨"a", "h", 25, none, false, none, none, none, false, false, ⟨"A", ["a@x"]⟩⟩,
        ⟨"b", "h", 25, none, false, none, none, none, false, false, ⟨"B", ["b@x"]⟩⟩],
       1⟩ : ServerConnectionList).append
        ⟨"c", "h", 25, none, false, none, none, none, false, false, ⟨"C", ["c@x"]⟩⟩
        false).activeInvariant := by
  have h0 : (⟨[⟨"a", "h", 25, none, false, none, none, none, false, false, ⟨"A", ["a@x"]⟩⟩,
       ⟨"b", "h", 25, none, false, none, none, none, false, false, ⟨"B", ["b@x"]⟩⟩],
      1⟩ : ServerConnectionList).activeInvariant := by decide
  exact ⟨h0,
    (serverConnectionList_active_invariant _
      ⟨"c", "h", 25, none, false, none, none, none, false, false, ⟨"C", ["c@x"]⟩⟩
      false 0 h0).1⟩

/-! ## The navigation engine (`CommandLine.init`)

`CommandLine.init` (`lib/ui/commandline.py:30-49`, duplicated in
`lib/commandline.py:26-45`) runs a loop over a `command_stack` and a
`next_command`; each iteration selects a current command (pending command
first, else pop the stack, else the main menu), invokes it, stores the
result as the new pending command and pushes the current command back when
the result was not `None`.  Actions are abstract here (`α`), and one loop
iteration's invoke result is read from an oracle list, so the theorems
quantify over every possible sequence of transitions. -/

/-- The loop state of `CommandLine.init`: the `command_stack` and the
`next_command` (`None` = no pending command). -/
structure NavState (α : Type) where
  stack : List α
  pending : Option α
deriving Repr, DecidableEq

/-- The selection step of `CommandLine.init`: the current command is the
pending command if set, else the top of the stack (which is popped), else
`main_menu` (`root`).  Returns the current command and the stack as it
stands when the command is invoked. -/
def navSelect {α : Type} (root : α) (s : NavState α) : α × List α :=
  match s.pending with
  | some a => (a, s.stack)
  | none =>
    match s.stack with
    | [] => (root, [])
    | c :: rest => (c, rest)

/-- One full iteration of the `CommandLine.init` loop, with the invoke
result of the current command supplied by `result`: the result becomes the
pending command, and the current command is pushed back onto the stack
exactly when the result is not `None`. -/
def navStep {α : Type} (root : α) (s : NavState α) (result : Option α) : NavState α :=
  match result with
  | some nxt => ⟨(navSelect root s).1 :: (navSelect root s).2, some nxt⟩
  | none => ⟨(navSelect root s).2, none⟩

/-- Runs the `CommandLine.init` loop through a finite sequence of invoke
results. -/
def navRun {α : Type} (root : α) : List (Option α) → NavState α → NavState α
  | [], s => s
  | r :: rs, s => navRun root rs (navStep root s r)

/-- The navigation depth of a state: the length of the stack at the moment
the next current command is invoked (the spec's "number of menu levels below
the root"); the command about to run is not counted.  When no command is
pending the top stack entry is the command the next iteration will pop and
re-enter, so it does not count as a level below the root either. -/
def navDepth {α : Type} (s : NavState α) : Nat :=
  match s.pending with
  | some _ => s.stack.length
  | none => s.stack.length - 1

/-- Number of push transitions (invoke results that are not `None`) in a
transition sequence. -/
def pushCount {α : Type} (rs : List (Option α)) : Nat :=
  rs.countP (fun r => r.isSome)

/-- Number of pop transitions (invoke results that are `None`) in a
transition sequence. -/
def popCount {α : Type} (rs : List (Option α)) : Nat :=
  rs.countP (fun r => r.isNone)

/-- `balancedFrom c rs` checks that, starting from depth credit `c`, no
prefix of `rs` has more pops than pushes plus `c` (each pop backs out of a
level that was actually descended into). -/
def balancedFrom {α : Type} (c : Nat) : List (Option α) → Bool
  | [] => true
  | some _ :: rs => balancedFrom (c + 1) rs
  | none :: rs => decide (0 < c) && balancedFrom (c - 1) rs

theorem navDepth_eq_select_length {α : Type} (root : α) (s : NavState α) :
    navDepth s = (navSelect root s).2.length := by
  obtain ⟨stack, pending⟩ := s
  cases pending with
  | some a => simp [navDepth, navSelect]
  | none =>
    cases stack with
    | nil => simp [navDepth, navSelect]
    | cons c rest => simp [navDepth, navSelect]

theorem navRun_depth {α : Type} (root : α) :
    ∀ (rs : List (Option α)) (s : NavState α),
      balancedFrom (navDepth s) rs = true →
      navDepth (navRun root rs s) + popCount rs = navDepth s + pushCount rs := by
  intro rs
  induction rs with
  | nil => intro s _; simp [navRun, pushCount, popCount]
  | cons r rest ih =>
    intro s hbal
    cases r with
    | some a =>
      have hdep : navDepth (navStep root s (some a)) = navDepth s + 1 := by
        rw [navDepth_eq_select_length root s]
        simp [navStep, navDepth]
      have hbal' : balancedFrom (navDepth (navStep root s (some a))) rest = true := by
        rw [hdep]
        simpa [balancedFrom] using hbal
      have hih := ih (navStep root s (some a)) hbal'
      rw [hdep] at hih
      have hpc : pushCount (some a :: rest) = pushCount rest + 1 := by
        simp [pushCount, List.countP_cons]
      have hqc : popCount (some a :: rest) = popCount rest := by
        simp [popCount, List.countP_cons]
      simp only [navRun]
      rw [hpc, hqc]
      omega
    | none =>
      have hbal1 : 0 < navDepth s ∧ balancedFrom (navDepth s - 1) rest = true := by
        simpa [balancedFrom, Bool.and_eq_true, decide_eq_true_eq] using hbal
      have hdep : navDepth (navStep root s none) = navDepth s - 1 := by
        rw [navDepth_eq_select_length root s]
        simp [navStep, navDepth]
      have hbal' : balancedFrom (navDepth (navStep root s none)) rest = true := by
        rw [hdep]
        exact hbal1.2
      have hih := ih (navStep root s none) hbal'
      rw [hdep] at hih
      have hpc : pushCount (none :: rest) = pushCount rest := by
        simp [pushCount, List.countP_cons]
      have hqc : popCount (none :: rest) = popCount rest + 1 := by
        simp [popCount, List.countP_cons]
      simp only [navRun]
      rw [hpc, hqc]
      have hpos := hbal1.1
      omega

/-- **C5.** Starting from the initial state of `CommandLine.init` (empty
stack, no pending command), for every balanced sequence of transitions with
`k` pushes (invoked action returning a non-null next action) and `j ≤ k`
pops (invoked action returning null), the navigation depth equals `k - j`
(stated as `depth + j = k`); and in the empty-stack, no-pending state, the
selection step chooses the root action (the main menu) with an empty stack,
rather than failing. -/
theorem commandLine_stack_depth {α : Type} (root : α) (rs : List (Option α))
    (hbal : balancedFrom 0 rs = true) :
    navDepth (navRun root rs ⟨[], none⟩) + popCount rs = pushCount rs ∧
    navSelect root (⟨[], none⟩ : NavState α) = (root, []) := by
  constructor
  · have h0 : navDepth (⟨[], none⟩ : NavState α) = 0 := rfl
    have := navRun_depth root rs ⟨[], none⟩ (by rw [h0]; exact hbal)
    omega
  · rfl

/-- Counterexample to C5 as literally stated: the transition sequence
"pop at the root, then push" has `k = 1` pushes and `j = 1 ≤ k` pops, but
the navigation depth afterwards is `1`, not `k - j = 0` — the pop happened
at the root with an empty stack and removed nothing, so the total-count
accounting breaks when a prefix has more pops than pushes. -/
theorem commandLine_stack_depth_counterexample :
    popCount [(none : Option Nat), some 1] ≤ pushCount [(none : Option Nat), some 1] ∧
    navDepth (navRun 0 [(none : Option Nat), some 1] ⟨[], none⟩)
      ≠ pushCount [(none : Option Nat), some 1]
        - popCount [(none : Option Nat), some 1] := by
  decide

/-- Witness for C5: the two-transition sequence "main menu pushes into a
submenu, the submenu pops" is balanced and ends at depth 0. -/
theorem commandLine_stack_depth_witness :
    balancedFrom 0 [some 1, none] = true ∧
    navDepth (navRun 0 [some (1 : Nat), none] ⟨[], none⟩) + popCount [some (1 : Nat), none]
      = pushCount [some (1 : Nat), none] :=
  ⟨by decide, (commandLine_stack_depth 0 [some 1, none] (by decide)).1⟩

/-! ## The dispatch pipeline (`lib/engine.py`) -/

/-- Embeds the `SendStatus` enum (`lib/engine.py:25-34`). -/
inductive SendStatus
  | OK
  | SMTP_GENERIC_ERROR
  | SMTP_MISSING_LOGIN_DATA
  | SMTP_HELO
  | SMTP_SENDER_REFUSED
  | SMTP_RECIPIENT_REFUSED
deriving Repr, DecidableEq

/-- The numeric code each `SendStatus` member carries. -/
def SendStatus.code : SendStatus → Nat
  | .OK => 0
  | .SMTP_GENERIC_ERROR => 100
  | .SMTP_MISSING_LOGIN_DATA => 101
  | .SMTP_HELO => 102
  | .SMTP_SENDER_REFUSED => 103
  | .SMTP_RECIPIENT_REFUSED => 104

/-- Embeds `email.message.EmailMessage` as far as the engine touches it:
a header list (in insertion order) and a body. -/
structure EmailMessage where
  headers : List (String × String)
  body : String
deriving Repr, DecidableEq

/-- Embeds `EmailMessage.add_header`: appends a header. -/
def EmailMessage.add_header (m : EmailMessage) (k v : String) : EmailMessage :=
  { m with headers := m.headers ++ [(k, v)] }

/-- The running `refused` map of `send_message`: an insertion-ordered dict
from refused address to `(smtp code, detail)`. -/
abbrev RefusedMap := List (String × Nat × String)

/-- Python dict assignment `d[k] = v`: replace in place if the key exists,
else append. -/
def refusedInsert (d : RefusedMap) (k : String) (v : Nat × String) : RefusedMap :=
  if d.any (fun e => e.1 = k) then
    d.map (fun e => if e.1 = k then (k, v) else e)
  else
    d ++ [(k, v)]

/-- Python dict merge `d |= d2` (as used on the `refused` dict at
`lib/engine.py:194` and `lib/engine.py:197`). -/
def refusedMerge (d d2 : RefusedMap) : RefusedMap :=
  d2.foldl (fun acc e => refusedInsert acc e.1 e.2) d

/-- Models `str(refused)` at `lib/engine.py:212`: a rendering of the refused
map, entry by entry in order. -/
def serializeRefused (d : RefusedMap) : String :=
  "\x7b" ++ String.intercalate ", "
    (d.map (fun e => e.1 ++ ": (" ++ toString e.2.1 ++ ", " ++ e.2.2 ++ ")")) ++ "\x7d"

/-- The possible outcomes of the `smtp.login` call at `lib/engine.py:176`,
as distinguished by the `except` clauses at lines 177-182. -/
inductive LoginResult
  | ok
  | authError (smtp_error : String)
  | heloError
  | otherError (ex : String)
deriving Repr, DecidableEq

/-- The possible outcomes of the `smtp.send_message` call at
`lib/engine.py:194`, as distinguished by the `except` clauses at lines
196-206: a normal return carries the (possibly empty) dict of refused
addresses, `SMTPRecipientsRefused` carries the dict of all refused
addresses, and the remaining four constructors are the connection-level
exceptions. -/
inductive SendAttemptResult
  | sent (refused : RefusedMap)
  | recipientsRefused (recipients : RefusedMap)
  | heloError
  | senderRefused
  | dataError (smtp_code : Nat) (smtp_error : String)
  | notSupported
deriving Repr, DecidableEq

/-- A send attempt outcome is recipient-scoped when it only reports refused
addresses rather than raising a connection-level error. -/
def SendAttemptResult.isRecipientScoped : SendAttemptResult → Bool
  | .sent _ => true
  | .recipientsRefused _ => true
  | _ => false

/-- The refused addresses a recipient-scoped outcome reports. -/
def SendAttemptResult.refusals : SendAttemptResult → RefusedMap
  | .sent d => d
  | .recipientsRefused d => d
  | _ => []

/-- The status `send_message` returns for a connection-level outcome of the
send attempt (`lib/engine.py:199-206`). -/
def SendAttemptResult.connStatus : SendAttemptResult → SendStatus
  | .heloError => .SMTP_HELO
  | .senderRefused => .SMTP_SENDER_REFUSED
  | .dataError _ _ => .SMTP_GENERIC_ERROR
  | .notSupported => .SMTP_GENERIC_ERROR
  | .sent _ => .OK
  | .recipientsRefused _ => .OK

/-- The detail string `send_message` returns for a connection-level outcome
of the send attempt (`lib/engine.py:199-206`). -/
def SendAttemptResult.connDetail (sender : Recipient) : SendAttemptResult → String
  | .heloError => ""
  | .senderRefused => sender.str
  | .dataError c e => toString c ++ ": " ++ e
  | .notSupported => "You did something evil."
  | .sent _ => ""
  | .recipientsRefused _ => ""

/-- The oracle for the external `smtplib.SMTP` transport: the outcome of
the login step and, for each index `i` of the recipient loop, the outcome
of the `i`-th `smtp.send_message` call. -/
structure Transport where
  loginResult : LoginResult
  sendResult : Nat → SendAttemptResult

/-- Embeds lines 190-192 of `lib/engine.py`: `rcpt_copy` is a deep copy of
the current message, with `From` set to `str(connection.sender)` and `To`
set to the recipient's formatted addresses joined by `", "`. -/
def buildRecipientMessage (msg : EmailMessage) (sender : Recipient)
    (recipient : Recipient) : EmailMessage :=
  (msg.add_header "From" sender.str).add_header
    "To" (String.intercalate ", " recipient.get_formatted)

/-- The result of one `send_message` call, together with the trace of
attempted transmissions (which recipient, with which message copy) and the
final refused map; the trace and the map let the theorems talk about what
the loop did. -/
structure SendResult where
  status : SendStatus
  detail : String
  attempted : List (Recipient × EmailMessage)
  refused : RefusedMap
deriving Repr, DecidableEq

/-- Embeds the recipient loop of `send_message` (`lib/engine.py:186-212`):
for each recipient in order, build `rcpt_copy` and attempt to send it;
merge recipient refusals into `refused` and continue; abort on a
connection-level exception; after the loop return `OK` when nothing was
refused, else `SMTP_RECIPIENT_REFUSED` with the serialized refused map. -/
def sendLoop (tr : Transport) (sender : Recipient) (msg : EmailMessage) :
    List Recipient → Nat → RefusedMap → List (Recipient × EmailMessage) → SendResult
  | [], _, refused, attempted =>
    if refused.isEmpty then
      ⟨.OK, "", attempted, refused⟩
    else
      ⟨.SMTP_RECIPIENT_REFUSED, serializeRefused refused, attempted, refused⟩
  | recipient :: rest, i, refused, attempted =>
    let rcpt_copy := buildRecipientMessage msg sender recipient
    let attempted' := attempted ++ [(recipient, rcpt_copy)]
    match tr.sendResult i with
    | .sent d => sendLoop tr sender msg rest (i + 1) (refusedMerge refused d) attempted'
    | .recipientsRefused d =>
        sendLoop tr sender msg rest (i + 1) (refusedMerge refused d) attempted'
    | .heloError => ⟨.SMTP_HELO, "", attempted', refused⟩
    | .senderRefused => ⟨.SMTP_SENDER_REFUSED, sender.str, attempted', refused⟩
    | .dataError c e => ⟨.SMTP_GENERIC_ERROR, toString c ++ ": " ++ e, attempted', refused⟩
    | .notSupported => ⟨.SMTP_GENERIC_ERROR, "You did something evil.", attempted', refused⟩

/-- Embeds the body of `send_message` (`lib/engine.py:153-212`) given the
active connection: the `starttls` upgrade has no observable effect in this
model; when the profile requires login, missing credentials return
`SMTP_MISSING_LOGIN_DATA` before the loop, and a failed login returns its
classification; otherwise the recipient loop runs.  The missing
`get_active`/`get_smtp` lookups are treated separately
(`send_message_as_implemented`). -/
def send_message (conn : ServerConnection) (tr : Transport) (rl : List Recipient)
    (msg : EmailMessage) (smtp_user smtp_password : Option String) : SendResult :=
  if conn.smtp_login then
    if smtp_user.isNone || smtp_password.isNone then
      ⟨.SMTP_MISSING_LOGIN_DATA, "", [], []⟩
    else
      match tr.loginResult with
      | .ok => sendLoop tr conn.sender msg rl 0 [] []
      | .authError e => ⟨.SMTP_GENERIC_ERROR, e, [], []⟩
      | .heloError => ⟨.SMTP_HELO, "", [], []⟩
      | .otherError e => ⟨.SMTP_GENERIC_ERROR, e, [], []⟩
  else
    sendLoop tr conn.sender msg rl 0 [] []

/-- The merge of the refusals the transport reports for loop indices
`i, i + 1, ..., i + n - 1` into an accumulating refused map. -/
def mergedRefusals (tr : Transport) : Nat → Nat → RefusedMap → RefusedMap
  | _, 0, acc => acc
  | i, n + 1, acc => mergedRefusals tr (i + 1) n (refusedMerge acc (tr.sendResult i).refusals)

/-- The dispatch reaches the recipient loop: either no login is required, or
credentials are present and the login call succeeds. -/
def reachesLoop (conn : ServerConnection) (tr : Transport)
    (smtp_user smtp_password : Option String) : Prop :=
  conn.smtp_login = false ∨
    (smtp_user.isSome = true ∧ smtp_password.isSome = true ∧ tr.loginResult = .ok)

theorem send_message_eq_sendLoop (conn : ServerConnection) (tr : Transport)
    (rl : List Recipient) (msg : EmailMessage) (smtp_user smtp_password : Option String)
    (h : reachesLoop conn tr smtp_user smtp_password) :
    send_message conn tr rl msg smtp_user smtp_password
      = sendLoop tr conn.sender msg rl 0 [] [] := by
  rcases h with h | ⟨hu, hp, hl⟩
  · simp [send_message, h]
  · by_cases hlog : conn.smtp_login = true
    · have hu' : smtp_user.isNone = false := by
        cases smtp_user <;> simp_all
      have hp' : smtp_password.isNone = false := by
        cases smtp_password <;> simp_all
      simp [send_message, hlog, hu', hp', hl]
    · simp [send_message, hlog]

theorem map_fst_pair {β : Type} (g : Recipient → β) :
    ∀ l : List Recipient, (l.map (fun r => (r, g r))).map Prod.fst = l := by
  intro l
  induction l with
  | nil => rfl
  | cons a t ih => simp [ih]

theorem sendLoop_all_recipientScoped (tr : Transport) (sender : Recipient)
    (msg : EmailMessage) :
    ∀ (rl : List Recipient) (i : Nat) (refused : RefusedMap)
      (attempted : List (Recipient × EmailMessage)),
      (∀ j, j < rl.length → (tr.sendResult (i + j)).isRecipientScoped = true) →
      (sendLoop tr sender msg rl i refused attempted).attempted
        = attempted ++ rl.map (fun r => (r, buildRecipientMessage msg sender r)) ∧
      (sendLoop tr sender msg rl i refused attempted).refused
        = mergedRefusals tr i rl.length refused ∧
      ((sendLoop tr sender msg rl i refused attempted).refused.isEmpty = true →
        (sendLoop tr sender msg rl i refused attempted).status = .OK ∧
        (sendLoop tr sender msg rl i refused attempted).detail = "") ∧
      ((sendLoop tr sender msg rl i refused attempted).refused.isEmpty = false →
        (sendLoop tr sender msg rl i refused attempted).status = .SMTP_RECIPIENT_REFUSED ∧
        (sendLoop tr sender msg rl i refused attempted).detail
          = serializeRefused (sendLoop tr sender msg rl i refused attempted).refused) := by
  intro rl
  induction rl with
  | nil =>
    intro i refused attempted _
    by_cases hemp : refused.isEmpty = true
    · simp [sendLoop, hemp, mergedRefusals]
    · simp only [Bool.not_eq_true] at hemp
      simp [sendLoop, hemp, mergedRefusals]
  | cons r rest ih =>
    intro i refused attempted h
    have h0 : (tr.sendResult i).isRecipientScoped = true := by
      have := h 0 (by simp)
      simpa using this
    have hshift : ∀ j, j < rest.length →
        (tr.sendResult (i + 1 + j)).isRecipientScoped = true := by
      intro j hj
      have := h (j + 1) (by simp; omega)
      have harith : i + (j + 1) = i + 1 + j := by omega
      rwa [harith] at this
    cases hres : tr.sendResult i with
    | sent d =>
      have := ih (i + 1) (refusedMerge refused d)
        (attempted ++ [(r, buildRecipientMessage msg sender r)]) hshift
      simp only [sendLoop, hres]
      refine ⟨?_, ?_, this.2.2⟩
      · rw [this.1]
        simp
      · rw [this.2.1]
        simp only [List.length_cons, mergedRefusals, hres, SendAttemptResult.refusals]
    | recipientsRefused d =>
      have := ih (i + 1) (refusedMerge refused d)
        (attempted ++ [(r, buildRecipientMessage msg sender r)]) hshift
      simp only [sendLoop, hres]
      refine ⟨?_, ?_, this.2.2⟩
      · rw [this.1]
        simp
      · rw [this.2.1]
        simp only [List.length_cons, mergedRefusals, hres, SendAttemptResult.refusals]
    | heloError => simp [SendAttemptResult.isRecipientScoped, hres] at h0
    | senderRefused => simp [SendAttemptResult.isRecipientScoped, hres] at h0
    | dataError c e => simp [SendAttemptResult.isRecipientScoped, hres] at h0
    | notSupported => simp [SendAttemptResult.isRecipientScoped, hres] at h0

/-- **C1.** When a dispatch reaches the recipient loop and the transport
reports only recipient-scoped refusals, the loop attempts every recipient
in registry order, the refused addresses are merged into a running refused
map, and `send_message` returns `OK` if and only if the final refused map
is empty, otherwise `SMTP_RECIPIENT_REFUSED` with the serialized refused
map as its detail string. -/
theorem send_message_recipient_refusals (conn : ServerConnection) (tr : Transport)
    (rl : List Recipient) (msg : EmailMessage) (u p : Option String)
    (hreach : reachesLoop conn tr u p)
    (hrec : ∀ j, j < rl.length → (tr.sendResult j).isRecipientScoped = true) :
    (send_message conn tr rl msg u p).attempted.map Prod.fst = rl ∧
    (send_message conn tr rl msg u p).refused = mergedRefusals tr 0 rl.length [] ∧
    ((send_message conn tr rl msg u p).status = .OK ↔
      (send_message conn tr rl msg u p).refused = []) ∧
    ((send_message conn tr rl msg u p).refused ≠ [] →
      (send_message conn tr rl msg u p).status = .SMTP_RECIPIENT_REFUSED ∧
      (send_message conn tr rl msg u p).detail
        = serializeRefused (send_message conn tr rl msg u p).refused) := by
  rw [send_message_eq_sendLoop conn tr rl msg u p hreach]
  have hrec0 : ∀ j, j < rl.length → (tr.sendResult (0 + j)).isRecipientScoped = true := by
    intro j hj
    simpa using hrec j hj
  obtain ⟨hatt, href, hok, hbad⟩ :=
    sendLoop_all_recipientScoped tr conn.sender msg rl 0 [] [] hrec0
  refine ⟨?_, href, ?_, ?_⟩
  · rw [hatt]
    simp only [List.nil_append]
    exact map_fst_pair _ rl
  · constructor
    · intro hst
      by_cases hemp : (sendLoop tr conn.sender msg rl 0 [] []).refused.isEmpty = true
      · exact List.isEmpty_iff.mp hemp
      · exact absurd hst (by simp [(hbad (by simpa using hemp)).1])
    · intro hnil
      exact (hok (by simp [hnil])).1
  · intro hnil
    have hemp : (sendLoop tr conn.sender msg rl 0 [] []).refused.isEmpty = false := by
      cases hx : (sendLoop tr conn.sender msg rl 0 [] []).refused with
      | nil => exact absurd hx hnil
      | cons a t => simp
    exact hbad hemp

/-- Concrete fixtures used by the witnesses below. -/
def sampleSender : Recipient := ⟨"Me", ["me@x"]⟩

def sampleConn : ServerConnection :=
  ⟨"cfg", "h", 25, none, false, none, none, none, false, false, sampleSender⟩

def sampleConnLogin : ServerConnection :=
  ⟨"cfg", "h", 25, none, true, none, none, none, false, false, sampleSender⟩

def sampleAnn : Recipient := ⟨"Ann", ["a@x"]⟩

def sampleAnn2 : Recipient := ⟨"Ann", ["a@x", "a2@x"]⟩

def sampleBob : Recipient := ⟨"Bob", ["b@x"]⟩

def sampleMsg : EmailMessage := ⟨[("Subject", "s")], "hi"⟩

def sampleTrRefuse : Transport := ⟨.ok, fun _ => .recipientsRefused [("a@x", 550, "denied")]⟩

def sampleTrOk : Transport := ⟨.ok, fun _ => .sent []⟩

def sampleTrHelo : Transport := ⟨.ok, fun _ => .heloError⟩

/-- Witness for C1: one recipient, transport refuses one address; the
recipient is attempted and the outcome tracks the refused map. -/
theorem send_message_recipient_refusals_witness :
    ((send_message sampleConn sampleTrRefuse [sampleAnn] sampleMsg
        none none).attempted.map Prod.fst = [sampleAnn]) ∧
    ((send_message sampleConn sampleTrRefuse [sampleAnn] sampleMsg none none).status
        = .OK ↔
      (send_message sampleConn sampleTrRefuse [sampleAnn] sampleMsg none none).refused
        = []) :=
  ⟨(send_message_recipient_refusals sampleConn sampleTrRefuse [sampleAnn] sampleMsg
      none none (Or.inl rfl) (fun _ _ => rfl)).1,
   (send_message_recipient_refusals sampleConn sampleTrRefuse [sampleAnn] sampleMsg
      none none (Or.inl rfl) (fun _ _ => rfl)).2.2.1⟩

/-- **C2.** When the active connection requires login and a credential is
missing, `send_message` returns `SMTP_MISSING_LOGIN_DATA` at once: no
recipient is attempted and nothing is refused. -/
theorem send_message_missing_login (conn : ServerConnection) (tr : Transport)
    (rl : List Recipient) (msg : EmailMessage) (u p : Option String)
    (hlogin : conn.smtp_login = true) (hmiss : u = none ∨ p = none) :
    send_message conn tr rl msg u p
      = ⟨.SMTP_MISSING_LOGIN_DATA, "", [], []⟩ := by
  have hn : u.isNone || p.isNone := by
    rcases hmiss with h | h <;> simp [h]
  simp [send_message, hlogin, hn]

/-- Witness for C2: a login-requiring profile dispatched without
credentials. -/
theorem send_message_missing_login_witness :
    send_message sampleConnLogin sampleTrOk [sampleAnn] sampleMsg none none
      = ⟨.SMTP_MISSING_LOGIN_DATA, "", [], []⟩ :=
  send_message_missing_login sampleConnLogin sampleTrOk [sampleAnn] sampleMsg
    none none rfl (Or.inl rfl)

theorem sendLoop_abort (tr : Transport) (sender : Recipient) (msg : EmailMessage) :
    ∀ (rl : List Recipient) (k i : Nat) (refused : RefusedMap)
      (attempted : List (Recipient × EmailMessage)),
      k < rl.length →
      (∀ j, j < k → (tr.sendResult (i + j)).isRecipientScoped = true) →
      (tr.sendResult (i + k)).isRecipientScoped = false →
      (sendLoop tr sender msg rl i refused attempted).attempted
        = attempted
          ++ (rl.take (k + 1)).map (fun r => (r, buildRecipientMessage msg sender r)) ∧
      (sendLoop tr sender msg rl i refused attempted).status
        = (tr.sendResult (i + k)).connStatus ∧
      (sendLoop tr sender msg rl i refused attempted).detail
        = (tr.sendResult (i + k)).connDetail sender := by
  intro rl
  induction rl with
  | nil =>
    intro k i refused attempted hk _ _
    simp at hk
  | cons r rest ih =>
    intro k i refused attempted hk hbefore habort
    cases k with
    | zero =>
      have h0 : (tr.sendResult i).isRecipientScoped = false := by simpa using habort
      cases hres : tr.sendResult i with
      | sent d => rw [hres] at h0; simp [SendAttemptResult.isRecipientScoped] at h0
      | recipientsRefused d =>
        rw [hres] at h0; simp [SendAttemptResult.isRecipientScoped] at h0
      | heloError =>
        simp [sendLoop, hres, SendAttemptResult.connStatus, SendAttemptResult.connDetail,
          List.take]
      | senderRefused =>
        simp [sendLoop, hres, SendAttemptResult.connStatus, SendAttemptResult.connDetail,
          List.take]
      | dataError c e =>
        simp [sendLoop, hres, SendAttemptResult.connStatus, SendAttemptResult.connDetail,
          List.take]
      | notSupported =>
        simp [sendLoop, hres, SendAttemptResult.connStatus, SendAttemptResult.connDetail,
          List.take]
    | succ k =>
      have h0 : (tr.sendResult i).isRecipientScoped = true := by
        have := hbefore 0 (by omega)
        simpa using this
      have hbefore' : ∀ j, j < k → (tr.sendResult (i + 1 + j)).isRecipientScoped = true := by
        intro j hj
        have := hbefore (j + 1) (by omega)
        have harith : i + (j + 1) = i + 1 + j := by omega
        rwa [harith] at this
      have habort' : (tr.sendResult (i + 1 + k)).isRecipientScoped = false := by
        have harith : i + (k + 1) = i + 1 + k := by omega
        rwa [harith] at habort
      have hk' : k < rest.length := by simpa using hk
      have harith2 : i + 1 + k = i + (k + 1) := by omega
      cases hres : tr.sendResult i with
      | sent d =>
        have := ih k (i + 1) (refusedMerge refused d)
          (attempted ++ [(r, buildRecipientMessage msg sender r)]) hk' hbefore' habort'
        rw [harith2] at this
        simp only [sendLoop, hres]
        refine ⟨?_, this.2⟩
        rw [this.1]
        simp [List.take]
      | recipientsRefused d =>
        have := ih k (i + 1) (refusedMerge refused d)
          (attempted ++ [(r, buildRecipientMessage msg sender r)]) hk' hbefore' habort'
        rw [harith2] at this
        simp only [sendLoop, hres]
        refine ⟨?_, this.2⟩
        rw [this.1]
        simp [List.take]
      | heloError => rw [hres] at h0; simp [SendAttemptResult.isRecipientScoped] at h0
      | senderRefused => rw [hres] at h0; simp [SendAttemptResult.isRecipientScoped] at h0
      | dataError c e => rw [hres] at h0; simp [SendAttemptResult.isRecipientScoped] at h0
      | notSupported => rw [hres] at h0; simp [SendAttemptResult.isRecipientScoped] at h0

/-- **C3.** When a dispatch reaches the recipient loop and the transport
raises a connection-level failure at loop index `k` (all earlier results
being recipient-scoped), the dispatch aborts there: exactly recipients
`0..k` were attempted, and the outcome is the classification of the
failure — `SMTP_HELO` for a handshake failure, `SMTP_SENDER_REFUSED` for a
sender refusal, and `SMTP_GENERIC_ERROR` for a fatal data error or an
operation-not-supported failure. -/
theorem send_message_connection_failure_aborts (conn : ServerConnection)
    (tr : Transport) (rl : List Recipient) (msg : EmailMessage)
    (u p : Option String) (k : Nat)
    (hreach : reachesLoop conn tr u p) (hk : k < rl.length)
    (hbefore : ∀ j, j < k → (tr.sendResult j).isRecipientScoped = true)
    (habort : (tr.sendResult k).isRecipientScoped = false) :
    (send_message conn tr rl msg u p).attempted.map Prod.fst = rl.take (k + 1) ∧
    (tr.sendResult k = .heloError →
      (send_message conn tr rl msg u p).status = .SMTP_HELO) ∧
    (tr.sendResult k = .senderRefused →
      (send_message conn tr rl msg u p).status = .SMTP_SENDER_REFUSED) ∧
    (∀ c e, tr.sendResult k = .dataError c e →
      (send_message conn tr rl msg u p).status = .SMTP_GENERIC_ERROR) ∧
    (tr.sendResult k = .notSupported →
      (send_message conn tr rl msg u p).status = .SMTP_GENERIC_ERROR) := by
  rw [send_message_eq_sendLoop conn tr rl msg u p hreach]
  have hbefore0 : ∀ j, j < k → (tr.sendResult (0 + j)).isRecipientScoped = true := by
    intro j hj
    simpa using hbefore j hj
  have habort0 : (tr.sendResult (0 + k)).isRecipientScoped = false := by simpa using habort
  obtain ⟨hatt, hstatus, _⟩ :=
    sendLoop_abort tr conn.sender msg rl k 0 [] [] hk hbefore0 habort0
  rw [Nat.zero_add] at hstatus
  refine ⟨?_, ?_, ?_, ?_, ?_⟩
  · rw [hatt]
    simp only [List.nil_append]
    exact map_fst_pair _ (rl.take (k + 1))
  · intro h; rw [hstatus, h]; rfl
  · intro h; rw [hstatus, h]; rfl
  · intro c e h; rw [hstatus, h]; rfl
  · intro h; rw [hstatus, h]; rfl

/-- Witness for C3: two recipients, handshake failure on the first send;
dispatch stops after the first recipient with `SMTP_HELO`. -/
theorem send_message_connection_failure_aborts_witness :
    ((send_message sampleConn sampleTrHelo [sampleAnn, sampleBob] sampleMsg
        none none).attempted.map Prod.fst = List.take 1 [sampleAnn, sampleBob]) ∧
    (send_message sampleConn sampleTrHelo [sampleAnn, sampleBob] sampleMsg
        none none).status = .SMTP_HELO :=
  ⟨(send_message_connection_failure_aborts sampleConn sampleTrHelo [sampleAnn, sampleBob]
      sampleMsg none none 0 (Or.inl rfl) (by simp)
      (fun j hj => absurd hj (Nat.not_lt_zero j)) rfl).1,
   (send_message_connection_failure_aborts sampleConn sampleTrHelo [sampleAnn, sampleBob]
      sampleMsg none none 0 (Or.inl rfl) (by simp)
      (fun j hj => absurd hj (Nat.not_lt_zero j)) rfl).2.1 rfl⟩

theorem sendLoop_attempted_shape (tr : Transport) (sender : Recipient)
    (msg : EmailMessage) :
    ∀ (rl : List Recipient) (i : Nat) (refused : RefusedMap)
      (attempted : List (Recipient × EmailMessage)),
      (∀ pr ∈ attempted, pr.2 = buildRecipientMessage msg sender pr.1) →
      ∀ pr ∈ (sendLoop tr sender msg rl i refused attempted).attempted,
        pr.2 = buildRecipientMessage msg sender pr.1 := by
  intro rl
  induction rl with
  | nil =>
    intro i refused attempted hshape pr hpr
    by_cases hemp : refused.isEmpty = true
    · simp only [sendLoop, if_pos hemp] at hpr
      exact hshape pr hpr
    · simp only [Bool.not_eq_true] at hemp
      simp only [sendLoop, hemp, Bool.false_eq_true, if_false] at hpr
      exact hshape pr hpr
  | cons r rest ih =>
    intro i refused attempted hshape pr hpr
    have hshape' : ∀ pr ∈ attempted ++ [(r, buildRecipientMessage msg sender r)],
        pr.2 = buildRecipientMessage msg sender pr.1 := by
      intro q hq
      rcases List.mem_append.mp hq with hq | hq
      · exact hshape q hq
      · simp at hq
        rw [hq]
    cases hres : tr.sendResult i with
    | sent d =>
      simp only [sendLoop, hres] at hpr
      exact ih (i + 1) (refusedMerge refused d) _ hshape' pr hpr
    | recipientsRefused d =>
      simp only [sendLoop, hres] at hpr
      exact ih (i + 1) (refusedMerge refused d) _ hshape' pr hpr
    | heloError =>
      simp only [sendLoop, hres] at hpr
      exact hshape' pr hpr
    | senderRefused =>
      simp only [sendLoop, hres] at hpr
      exact hshape' pr hpr
    | dataError c e =>
      simp only [sendLoop, hres] at hpr
      exact hshape' pr hpr
    | notSupported =>
      simp only [sendLoop, hres] at hpr
      exact hshape' pr hpr

/-- **C10.** Every transmission the dispatch loop attempts carries a fresh
copy of the current message (the shared message is never mutated: each copy
is built from the original `msg`), whose `From` header is the active
profile's sender identity and whose `To` header is all of that recipient's
addresses joined into one header value. -/
theorem send_message_fresh_copy_per_recipient (conn : ServerConnection)
    (tr : Transport) (rl : List Recipient) (msg : EmailMessage)
    (u p : Option String) :
    ∀ pr ∈ (send_message conn tr rl msg u p).attempted,
      pr.2 = buildRecipientMessage msg conn.sender pr.1 ∧
      pr.2.headers = msg.headers
        ++ [("From", conn.sender.str),
            ("To", String.intercalate ", " pr.1.get_formatted)] := by
  have hempty : ∀ pr ∈ ([] : List (Recipient × EmailMessage)),
      pr.2 = buildRecipientMessage msg conn.sender pr.1 := by
    intro pr hpr
    simp at hpr
  have hmain : ∀ pr ∈ (send_message conn tr rl msg u p).attempted,
      pr.2 = buildRecipientMessage msg conn.sender pr.1 := by
    unfold send_message
    by_cases hlog : conn.smtp_login = true
    · by_cases hmiss : (u.isNone || p.isNone) = true
      · simp [hlog, hmiss]
      · have hmiss' : (u.isNone || p.isNone) = false := by
          cases hx : (u.isNone || p.isNone) with
          | false => rfl
          | true => exact absurd hx hmiss
        simp only [hlog, if_true, hmiss', Bool.false_eq_true, if_false]
        cases tr.loginResult with
        | ok => exact sendLoop_attempted_shape tr conn.sender msg rl 0 [] [] hempty
        | authError e => simp
        | heloError => simp
        | otherError e => simp
    · have hlog' : conn.smtp_login = false := by simpa using hlog
      simp only [hlog', Bool.false_eq_true, if_false]
      exact sendLoop_attempted_shape tr conn.sender msg rl 0 [] [] hempty
  intro pr hpr
  refine ⟨hmain pr hpr, ?_⟩
  rw [hmain pr hpr]
  simp [buildRecipientMessage, EmailMessage.add_header]

/-- Witness for C10: a concrete dispatch to one two-address recipient; the
attempted message is the original message plus the injected `From` and
joined `To` headers. -/
theorem send_message_fresh_copy_per_recipient_witness :
    (buildRecipientMessage sampleMsg sampleConn.sender sampleAnn2).headers
      = sampleMsg.headers
        ++ [("From", sampleConn.sender.str),
            ("To", String.intercalate ", " sampleAnn2.get_formatted)] :=
  (send_message_fresh_copy_per_recipient sampleConn sampleTrOk [sampleAnn2] sampleMsg
    none none
    (sampleAnn2, buildRecipientMessage sampleMsg sampleConn.sender sampleAnn2)
    (by decide)).2

/-! ## Attribute lookups in `send_message` as implemented (C4) -/

/-- The methods `class ServerConnectionList` defines
(`lib/server_connections.py:64-116`), as Python attribute lookup sees them. -/
def serverConnectionListMethods : List String :=
  ["__init__", "__len__", "delete", "set_active", "__getitem__", "append"]

/-- The methods `class ServerConnection` defines
(`lib/server_connections.py:23-61`). -/
def serverConnectionMethods : List String :=
  ["__init__"]

/-- A Python call result: a value, or an `AttributeError` naming the class
and the missing attribute. -/
inductive PyCall (α : Type)
  | ok (val : α)
  | attributeError (cls attr : String)
deriving Repr, DecidableEq

/-- Embeds the entry of `send_message` as implemented
(`lib/engine.py:168-169`): line 168 looks `get_active` up on
`ServerConnectionList` and line 169 looks `get_smtp` up on the resulting
connection; an attribute absent from the class raises `AttributeError`.
Were both lookups to succeed, the dispatch body modelled by `send_message`
would run. -/
def send_message_as_implemented (scl : ServerConnectionList) (tr : Transport)
    (rl : List Recipient) (msg : EmailMessage)
    (smtp_user smtp_password : Option String) : PyCall (SendStatus × String) :=
  if serverConnectionListMethods.contains "get_active" then
    match scl.get_active with
    | none => .attributeError "NoneType" "get_smtp"
    | some conn =>
      if serverConnectionMethods.contains "get_smtp" then
        .ok ((send_message conn tr rl msg smtp_user smtp_password).status,
             (send_message conn tr rl msg smtp_user smtp_password).detail)
      else
        .attributeError "ServerConnection" "get_smtp"
  else
    .attributeError "ServerConnectionList" "get_active"

/-- **C4.** Neither `get_active` nor `get_smtp` is defined on its class
anywhere in the source, so every call to `send_message` as implemented
raises `AttributeError` for `ServerConnectionList.get_active` before any
`SendStatus` is produced: no dispatch attempt can return an outcome. -/
theorem send_message_as_implemented_attribute_error (scl : ServerConnectionList)
    (tr : Transport) (rl : List Recipient) (msg : EmailMessage)
    (u p : Option String) :
    serverConnectionListMethods.contains "get_active" = false ∧
    serverConnectionMethods.contains "get_smtp" = false ∧
    send_message_as_implemented scl tr rl msg u p
      = .attributeError "ServerConnectionList" "get_active" ∧
    (∀ out : SendStatus × String, send_message_as_implemented scl tr rl msg u p ≠ .ok out) := by
  have hno : ¬ ("get_active" ∈ serverConnectionListMethods) := by decide
  refine ⟨by decide, by decide, ?_, ?_⟩
  · simp [send_message_as_implemented, hno]
  · intro out
    simp [send_message_as_implemented, hno]

/-! ## The `_message_send_2` dispatch entry (`lib/ui/commandline.py:593-622`) -/

/-- The result surface of `_message_send_2`: either the distinct
"no active server connection" condition (checked against `None` before any
SMTP work), or the `(SendStatus, detail)` pair from `send_message`. -/
inductive DispatchResult
  | noActiveConnection
  | smtpResult (status : SendStatus) (detail : String)
deriving Repr, DecidableEq

/-- Embeds `_message_send_2` (with the spec-modelled `get_active`): fetch
the active connection; if there is none, report that and stop before any
transport operation; otherwise collect credentials when the profile
requires login (`userInput` is what the user would type) and run
`send_message`. -/
def message_send_2 (scl : ServerConnectionList) (tr : Transport)
    (rl : List Recipient) (msg : EmailMessage) (userInput : String × String) :
    DispatchResult :=
  match scl.get_active with
  | none => .noActiveConnection
  | some conn =>
    let creds : Option String × Option String :=
      if conn.smtp_login then (some userInput.1, some userInput.2) else (none, none)
    .smtpResult (send_message conn tr rl msg creds.1 creds.2).status
      (send_message conn tr rl msg creds.1 creds.2).detail

/-- **C8.** A dispatch attempted while no server profile is active (active
index `-1`) fails fast with the distinct `noActiveConnection` condition —
an outcome outside the `SendStatus` taxonomy — and performs no transport
operation: the result does not depend on the transport at all. -/
theorem message_send_2_no_active_connection (scl : ServerConnectionList)
    (tr : Transport) (rl : List Recipient) (msg : EmailMessage)
    (userInput : String × String) (h : scl.active = -1) :
    message_send_2 scl tr rl msg userInput = .noActiveConnection ∧
    (∀ s d, message_send_2 scl tr rl msg userInput ≠ .smtpResult s d) ∧
    (∀ tr2 : Transport,
      message_send_2 scl tr2 rl msg userInput = message_send_2 scl tr rl msg userInput) := by
  have hget : scl.get_active = none := by
    unfold ServerConnectionList.get_active
    rw [h]
    simp
  refine ⟨?_, ?_, ?_⟩
  · simp [message_send_2, hget]
  · intro s d
    simp [message_send_2, hget]
  · intro tr2
    simp [message_send_2, hget]

/-- Witness for C8: the empty connection list (active index `-1`). -/
theorem message_send_2_no_active_connection_witness :
    message_send_2 ServerConnectionList.empty sampleTrOk [sampleAnn] sampleMsg ("u", "p")
      = .noActiveConnection :=
  (message_send_2_no_active_connection ServerConnectionList.empty sampleTrOk [sampleAnn]
    sampleMsg ("u", "p") rfl).1

/-! ## The recipient-file loader (`lib/engine.py:82-103`) -/

/-- A Python return value of `recipients_load_file`: `True`, `False`, or the
implicit `None` of a function body that ends without a `return`. -/
inductive PyReturn
  | pyTrue
  | pyFalse
  | pyNone
deriving Repr, DecidableEq

/-- Embeds `recipients_load_file`.  The input `file` is `none` when `open`
raises `OSError`, else the `(display name, address)` pairs
`email.utils.getaddresses(fp.readlines())` yields.  (The
`isinstance(fp, io.TextIOBase)` guard is dead: `open(path, encoding=...)`
always returns a `TextIOBase`.)  On the success path the source builds
`map(lambda name: recipients_add_new(Recipient(name, ...)), set(...))` at
line 101 and discards it; in Python 3 `map` is a lazy iterator, so the
lambda never runs and the registry is untouched.  Control then falls off
the end of the function, whose implicit return value is `None`. -/
def recipients_load_file (registry : List Recipient)
    (file : Option (List (String × String))) : PyReturn × List Recipient :=
  match file with
  | none => (.pyFalse, registry)
  | some data =>
    let _data := data
    (.pyNone, registry)

/-- The grouping of parsed addresses by display name that the loader's
docstring and the spec describe (first-seen order of distinct names, a
repeated name extending its existing recipient).  Stated from the spec's
words, only to compare against what the code leaves in the registry. -/
def groupByNameSpec (data : List (String × String)) : List Recipient :=
  data.foldl (fun acc e =>
    if acc.any (fun r => r.name = e.1) then
      acc.map (fun r => if r.name = e.1 then ⟨r.name, r.addresses ++ [e.2]⟩ else r)
    else
      acc ++ [⟨e.1, [e.2]⟩]) []

/-- **C6 (counterexample to the claim; the code is the defective side).**
On the file parsing to entries `Ann <a@x>`, `Ann <a2@x>`, `Bob <b@x>`, the
loader as implemented leaves the registry unchanged (here: empty) and
returns the implicit `None` — not the registry of two grouped recipients
(`Ann` with `[a@x, a2@x]`, then `Bob` with `[b@x]`) that the claim (and the
spec's intended grouping, `groupByNameSpec`) requires. -/
theorem recipients_load_file_grouping_discarded :
    recipients_load_file []
        (some [("Ann", "a@x"), ("Ann", "a2@x"), ("Bob", "b@x")])
      = (.pyNone, []) ∧
    groupByNameSpec [("Ann", "a@x"), ("Ann", "a2@x"), ("Bob", "b@x")]
      = [⟨"Ann", ["a@x", "a2@x"]⟩, ⟨"Bob", ["b@x"]⟩] ∧
    (recipients_load_file []
        (some [("Ann", "a@x"), ("Ann", "a2@x"), ("Bob", "b@x")])).2
      ≠ groupByNameSpec [("Ann", "a@x"), ("Ann", "a2@x"), ("Bob", "b@x")] := by
  refine ⟨rfl, by decide, by decide⟩

/-- **C7 (the code contradicts its own docstring).**  `recipients_load_file`
returns the falsy `False` and an unchanged registry when the file cannot be
opened, but on every successfully opened file — including one with zero
parseable entries — it returns the implicit `None` (falsy), never the
`True` its docstring advertises, so a caller cannot distinguish success
from failure by the advertised truthy result. -/
theorem recipients_load_file_never_returns_true :
    (∀ registry, recipients_load_file registry none = (.pyFalse, registry)) ∧
    (∀ registry data, recipients_load_file registry (some data)
        = (.pyNone, registry)) ∧
    (PyReturn.pyNone ≠ PyReturn.pyTrue ∧ PyReturn.pyFalse ≠ PyReturn.pyTrue) := by
  refine ⟨fun _ => rfl, fun _ _ => rfl, by decide, by decide⟩

end BulkMailer
